import Mathlib

/-!
Verification of the hop buffer adapter (src/index.ts) against its
natural-language specification.

The TypeScript class `CustomHopWorkletProcessor` is shallowly embedded.
Float32Array samples are modelled as `Int` values: the adapter only ever
copies samples (no arithmetic is performed on them), so the verification
is insensitive to the numeric type.

Because `setInputAndChannelCount` writes
`this._outputBuffers = { ...this._inputBuffers }` (a shallow copy that
shares the inner Float32Array objects), the embedding carries an explicit
heap of array cells and the two buffer sets are grids of references into
that heap.  This keeps JavaScript aliasing observable in the model.
-/

set_option maxRecDepth 100000

namespace HopWorklet

abbrev Sample := Int

/-- Models one Float32Array (a mutable array of samples). -/
abbrev Buf := List Sample

/-- A grid of sample arrays, indexed [input stream][channel]. -/
abbrev Grid := List (List Buf)

/-- A grid of references (heap indices) to Float32Array cells. -/
abbrev RefGrid := List (List Nat)

/-- `export const WEB_AUDIO_BLOCK_SIZE = 128;` (src/index.ts line 1). -/
def WEB_AUDIO_BLOCK_SIZE : Nat := 128

/-- Models `tgt.set(src, off)` of Float32Array: overwrite `tgt` starting at
offset `off` with the samples of `src`, keeping the rest.  All call sites in
the source use it with `off + src.length ≤ tgt.length` (JavaScript would
throw a RangeError otherwise). -/
def bufSet (tgt : Buf) (off : Nat) (src : Buf) : Buf :=
  tgt.take off ++ src ++ tgt.drop (off + src.length)

/-- The mutable state of a `CustomHopWorkletProcessor` instance:
`_hopSize`, `_inputBuffers`, `_outputBuffers`, `_readPointer`,
`_writePointer`.  The Float32Array objects live in `heap`; the two buffer
sets hold references into it. -/
structure AdapterState where
  hopSize : Nat
  heap : List Buf
  inputBuffers : RefGrid
  outputBuffers : RefGrid
  readPointer : Nat
  writePointer : Nat
deriving DecidableEq

/-- The heap reference stored at grid position `ij` of a buffer set. -/
def refOf (g : RefGrid) (ij : Nat × Nat) : Nat :=
  (g.getD ij.1 []).getD ij.2 0

/-- All grid positions (i, j) of a buffer set, in the iteration order of the
nested `for` loops of the source. -/
def gridIdx (g : RefGrid) : List (Nat × Nat) :=
  ((List.range g.length).map (fun i =>
    (List.range (g.getD i []).length).map (fun j => (i, j)))).flatten

/-- A sequence of in-place array writes: at each position of `l`, the cell at
reference `r ij` is replaced by `w ij` applied to its current content. -/
def heapWrites (h : List Buf) (l : List (Nat × Nat)) (r : Nat × Nat → Nat)
    (w : Nat × Nat → Buf → Buf) : List Buf :=
  l.foldl (fun h ij => h.set (r ij) (w ij (h.getD (r ij) []))) h

/-- The contents currently visible through a buffer set (dereference every
cell of the grid). -/
def gridView (h : List Buf) (g : RefGrid) : Grid :=
  g.map (fun row => row.map (fun r => h.getD r []))

/-- `setInputAndChannelCount` (src/index.ts lines 45-53): allocates a fresh
zero-filled `Float32Array(hopSize)` per (input, channel) pair for
`_inputBuffers`, then sets `_outputBuffers = { ...this._inputBuffers }` —
a shallow copy, so the drain set holds the very same array references. -/
def setInputAndChannelCount (s : AdapterState) (inputCount channelCount : Nat) :
    AdapterState :=
  let base := s.heap.length
  let fresh : RefGrid := (List.range inputCount).map (fun i =>
    (List.range channelCount).map (fun j => base + (i * channelCount + j)))
  { s with
      heap := s.heap ++
        (List.range (inputCount * channelCount)).map
          (fun _ => List.replicate s.hopSize (0 : Sample)),
      inputBuffers := fresh,
      outputBuffers := fresh }

/-- The constructor (src/index.ts lines 28-38): stores the hop size, builds
the buffers, then sets `_readPointer = hopSize` and `_writePointer = 0`. -/
def mkProcessor (hopSize inputCount channelCount : Nat) : AdapterState :=
  let s := setInputAndChannelCount
    { hopSize := hopSize, heap := [], inputBuffers := [], outputBuffers := [],
      readPointer := 0, writePointer := 0 } inputCount channelCount
  { s with readPointer := hopSize, writePointer := 0 }

/-- `_inputBuffer` (src/index.ts lines 109-117): for every (input, channel)
pair, `this._inputBuffers[i][j].set(input[i][j])` — note the source passes
NO offset argument, so the block is written at offset 0 — then
`this._writePointer += WEB_AUDIO_BLOCK_SIZE`. -/
def inputBufferStep (s : AdapterState) (input : Grid) : AdapterState :=
  { s with
      heap := heapWrites s.heap (gridIdx s.inputBuffers)
        (refOf s.inputBuffers)
        (fun ij old => bufSet old 0 ((input.getD ij.1 []).getD ij.2 [])),
      writePointer := s.writePointer + WEB_AUDIO_BLOCK_SIZE }

/-- `_inputHasEnough` (src/index.ts lines 119-121). -/
def inputHasEnough (s : AdapterState) : Prop :=
  s.hopSize ≤ s.writePointer

instance (s : AdapterState) : Decidable (inputHasEnough s) :=
  Nat.decLe _ _

/-- `_outputHasMore` (src/index.ts lines 123-125). -/
def outputHasMore (s : AdapterState) : Prop :=
  s.readPointer < s.hopSize

instance (s : AdapterState) : Decidable (outputHasMore s) :=
  Nat.decLt _ _

/-- `_resetPointers` (src/index.ts lines 127-130). -/
def resetPointers (s : AdapterState) : AdapterState :=
  { s with readPointer := 0, writePointer := 0 }

/-- The slice `this._outputBuffers[i][j].subarray(readPointer,
readPointer + WEB_AUDIO_BLOCK_SIZE)` read during a drain. -/
def drainSlice (s : AdapterState) (i j : Nat) : Buf :=
  ((s.heap.getD (refOf s.outputBuffers (i, j)) []).drop s.readPointer).take
    WEB_AUDIO_BLOCK_SIZE

/-- `_outputShiftTo` (src/index.ts lines 94-107): copies the next drain slice
into every channel of the host output block, then advances the read pointer.
The host output arrays are assumed pairwise distinct (they are provided
fresh by the host), so the loop is a pointwise map on the host grid. -/
def outputShiftTo (s : AdapterState) (outputs : Grid) : Grid × AdapterState :=
  ((List.range outputs.length).map (fun i =>
      (List.range (outputs.getD i []).length).map (fun j =>
        bufSet ((outputs.getD i []).getD j []) 0 (drainSlice s i j))),
   { s with readPointer := s.readPointer + WEB_AUDIO_BLOCK_SIZE })

/-- The opaque user hook `processBuffered`: it receives the live input and
output buffer objects and mutates them in place.  Its net effect on one call
is a function from the contents it can see (the dereferenced input view and
output view) to the new contents of the cells it was handed, together with
the returned success flag. -/
structure PB where
  run : Grid → Grid → Grid × Bool

/-- Writing the contents produced by `processBuffered` back into the cells
referenced by `_outputBuffers` (the hook mutates those arrays in place). -/
def writePBResult (s : AdapterState) (v : Grid) : AdapterState :=
  { s with
      heap := heapWrites s.heap (gridIdx s.outputBuffers)
        (refOf s.outputBuffers)
        (fun ij _ => (v.getD ij.1 []).getD ij.2 []) }

/-- Everything one call to `process` produces.  `keepAlive` is the returned
boolean and `outputs` the host output block after the call; `state` is the
adapter afterwards.  `calledProcessBuffered`, `pbInput` and `pbOutput` are
ghost observations recording whether the hook ran and which buffer views it
received. -/
structure ProcessResult where
  keepAlive : Bool
  outputs : Grid
  state : AdapterState
  calledProcessBuffered : Bool
  pbInput : Grid
  pbOutput : Grid
deriving DecidableEq

/-- `process` (src/index.ts lines 73-92): accumulate, then drain if output is
pending, else return if the hop is not full, else run `processBuffered`,
propagating failure, and on success reset both pointers and drain once. -/
def process (pb : PB) (s : AdapterState) (inputs outputs : Grid) :
    ProcessResult :=
  let s1 := inputBufferStep s inputs
  if outputHasMore s1 then
    let r := outputShiftTo s1 outputs
    ⟨true, r.1, r.2, false, [], []⟩
  else if ¬ inputHasEnough s1 then
    ⟨true, outputs, s1, false, [], []⟩
  else
    let iv := gridView s1.heap s1.inputBuffers
    let ov := gridView s1.heap s1.outputBuffers
    let pr := pb.run iv ov
    let s2 := writePBResult s1 pr.1
    if pr.2 then
      let r := outputShiftTo (resetPointers s2) outputs
      ⟨true, r.1, r.2, true, iv, ov⟩
    else
      ⟨false, outputs, s2, true, iv, ov⟩

/-- Repeated host invocations: each call receives the next input block and a
fresh host output block `z`; collects every per-call result. -/
def runCalls (pb : PB) (z : Grid) :
    AdapterState → List Grid → AdapterState × List ProcessResult
  | s, [] => (s, [])
  | s, g :: gs =>
    let r := process pb s g z
    let rest := runCalls pb z r.state gs
    (rest.1, r :: rest.2)

/-! ### Generic list helpers -/

theorem getD_map_range {α : Type} (f : Nat → α) (d : α) {i n : Nat}
    (h : i < n) : ((List.range n).map f).getD i d = f i := by
  rw [List.getD_eq_getElem?_getD, List.getElem?_map, List.getElem?_range h]
  rfl

theorem getD_replicate {α : Type} (d a : α) {i n : Nat} (h : i < n) :
    (List.replicate n a).getD i d = a := by
  rw [List.getD_eq_getElem?_getD, List.getElem?_replicate]
  simp [h]

theorem drop_append_of_le {α : Type} (a l : List α) {m : Nat}
    (h : a.length ≤ m) : (a ++ l).drop m = l.drop (m - a.length) := by
  have hd := @List.drop_append _ a l (m - a.length)
  rwa [show a.length + (m - a.length) = m by omega] at hd

/-- `bufSet` at offset 0 overwrites a prefix. -/
theorem bufSet_zero (tgt src : Buf) :
    bufSet tgt 0 src = src ++ tgt.drop src.length := by
  simp [bufSet]

theorem bufSet_zero_of_ge (tgt src : Buf) (h : tgt.length ≤ src.length) :
    bufSet tgt 0 src = src := by
  rw [bufSet_zero, List.drop_eq_nil_of_le h, List.append_nil]

theorem length_bufSet_zero (tgt src : Buf) (h : src.length ≤ tgt.length) :
    (bufSet tgt 0 src).length = tgt.length := by
  rw [bufSet_zero]
  simp
  omega

theorem drop_bufSet_zero (tgt src : Buf) {m : Nat} (h : src.length ≤ m) :
    (bufSet tgt 0 src).drop m = tgt.drop m := by
  rw [bufSet_zero, drop_append_of_le _ _ (le_trans h le_rfl), List.drop_drop]
  congr 1
  omega

/-! ### Heap write lemmas -/

theorem heapWrites_length (l : List (Nat × Nat)) (r : Nat × Nat → Nat)
    (w : Nat × Nat → Buf → Buf) (h : List Buf) :
    (heapWrites h l r w).length = h.length := by
  induction l generalizing h with
  | nil => rfl
  | cons b t ih =>
    show (heapWrites (h.set (r b) (w b (h.getD (r b) []))) t r w).length =
      h.length
    rw [ih, List.length_set]

theorem heapWrites_getD_notmem (l : List (Nat × Nat)) (r : Nat × Nat → Nat)
    (w : Nat × Nat → Buf → Buf) (h : List Buf) {q : Nat}
    (hq : ∀ ij ∈ l, r ij ≠ q) :
    (heapWrites h l r w).getD q [] = h.getD q [] := by
  induction l generalizing h with
  | nil => rfl
  | cons b t ih =>
    have hb : r b ≠ q := hq b (by simp)
    have ht : ∀ ij ∈ t, r ij ≠ q := fun ij hij => hq ij (by simp [hij])
    show (heapWrites (h.set (r b) _) t r w).getD q [] = _
    rw [ih _ ht, List.getD_eq_getElem?_getD, List.getElem?_set_ne hb,
      ← List.getD_eq_getElem?_getD]

theorem heapWrites_getD_mem (l : List (Nat × Nat)) (r : Nat × Nat → Nat)
    (w : Nat × Nat → Buf → Buf) :
    ∀ (h : List Buf) {a : Nat × Nat},
      (l.map r).Nodup → a ∈ l → r a < h.length →
      (heapWrites h l r w).getD (r a) [] = w a (h.getD (r a) []) := by
  induction l with
  | nil =>
    intro h a hnd ha hlt
    cases ha
  | cons b t ih =>
    intro h a hnd ha hlt
    rw [List.map_cons, List.nodup_cons] at hnd
    show (heapWrites (h.set (r b) (w b (h.getD (r b) []))) t r w).getD
      (r a) [] = _
    rcases List.mem_cons.1 ha with hab | hat
    · subst hab
      have hnot : ∀ ij ∈ t, r ij ≠ r a := by
        intro ij hij hcon
        exact hnd.1 (hcon ▸ List.mem_map_of_mem r hij)
      rw [heapWrites_getD_notmem _ _ _ _ hnot,
        List.getD_eq_getElem?_getD, List.getElem?_set_self hlt]
      rfl
    · have hne : r b ≠ r a := by
        intro hcon
        exact hnd.1 (hcon ▸ List.mem_map_of_mem r hat)
      have hih := ih (h.set (r b) (w b (h.getD (r b) []))) hnd.2 hat
        (by simpa using hlt)
      rw [hih, List.getD_eq_getElem?_getD, List.getElem?_set_ne hne,
        ← List.getD_eq_getElem?_getD]

/-- Membership in the iteration order of the nested loops. -/
theorem mem_gridIdx {g : RefGrid} {i j : Nat} :
    (i, j) ∈ gridIdx g ↔ i < g.length ∧ j < (g.getD i []).length := by
  unfold gridIdx
  rw [List.mem_flatten]
  constructor
  · rintro ⟨l, hl, hmem⟩
    rw [List.mem_map] at hl
    obtain ⟨i0, hi0, rfl⟩ := hl
    rw [List.mem_map] at hmem
    obtain ⟨j0, hj0, hpair⟩ := hmem
    obtain ⟨rfl, rfl⟩ := Prod.mk.injEq .. ▸ hpair
    exact ⟨List.mem_range.1 hi0, List.mem_range.1 hj0⟩
  · rintro ⟨hi, hj⟩
    refine ⟨(List.range (g.getD i []).length).map (fun j => (i, j)), ?_, ?_⟩
    · exact List.mem_map_of_mem _ (List.mem_range.2 hi)
    · exact List.mem_map_of_mem _ (List.mem_range.2 hj)

/-! ### Field-tracking lemmas for the individual operations -/

@[simp] theorem inputBufferStep_hopSize (s : AdapterState) (g : Grid) :
    (inputBufferStep s g).hopSize = s.hopSize := rfl

@[simp] theorem inputBufferStep_readPointer (s : AdapterState) (g : Grid) :
    (inputBufferStep s g).readPointer = s.readPointer := rfl

@[simp] theorem inputBufferStep_writePointer (s : AdapterState) (g : Grid) :
    (inputBufferStep s g).writePointer =
      s.writePointer + WEB_AUDIO_BLOCK_SIZE := rfl

@[simp] theorem inputBufferStep_inputBuffers (s : AdapterState) (g : Grid) :
    (inputBufferStep s g).inputBuffers = s.inputBuffers := rfl

@[simp] theorem inputBufferStep_outputBuffers (s : AdapterState) (g : Grid) :
    (inputBufferStep s g).outputBuffers = s.outputBuffers := rfl

@[simp] theorem inputBufferStep_heap_length (s : AdapterState) (g : Grid) :
    (inputBufferStep s g).heap.length = s.heap.length := by
  show (heapWrites s.heap (gridIdx s.inputBuffers) (refOf s.inputBuffers)
    (fun ij old => bufSet old 0 ((g.getD ij.1 []).getD ij.2 []))).length = _
  exact heapWrites_length ..

/-- The accumulate step of the source overwrites each accumulation cell at
offset 0 (the offset argument of Float32Array.set is absent). -/
theorem inputBufferStep_cell (s : AdapterState) (input : Grid) {i j : Nat}
    (hnd : ((gridIdx s.inputBuffers).map (refOf s.inputBuffers)).Nodup)
    (hmem : (i, j) ∈ gridIdx s.inputBuffers)
    (hlt : refOf s.inputBuffers (i, j) < s.heap.length) :
    (inputBufferStep s input).heap.getD (refOf s.inputBuffers (i, j)) [] =
      bufSet (s.heap.getD (refOf s.inputBuffers (i, j)) []) 0
        ((input.getD i []).getD j []) := by
  show (heapWrites s.heap (gridIdx s.inputBuffers) (refOf s.inputBuffers)
    (fun ij old => bufSet old 0 ((input.getD ij.1 []).getD ij.2 []))).getD
      (refOf s.inputBuffers (i, j)) [] = _
  exact heapWrites_getD_mem _ _ _ _ hnd hmem hlt

@[simp] theorem writePBResult_hopSize (s : AdapterState) (v : Grid) :
    (writePBResult s v).hopSize = s.hopSize := rfl

@[simp] theorem writePBResult_readPointer (s : AdapterState) (v : Grid) :
    (writePBResult s v).readPointer = s.readPointer := rfl

@[simp] theorem writePBResult_writePointer (s : AdapterState) (v : Grid) :
    (writePBResult s v).writePointer = s.writePointer := rfl

@[simp] theorem writePBResult_inputBuffers (s : AdapterState) (v : Grid) :
    (writePBResult s v).inputBuffers = s.inputBuffers := rfl

@[simp] theorem writePBResult_outputBuffers (s : AdapterState) (v : Grid) :
    (writePBResult s v).outputBuffers = s.outputBuffers := rfl

@[simp] theorem writePBResult_heap_length (s : AdapterState) (v : Grid) :
    (writePBResult s v).heap.length = s.heap.length := by
  show (heapWrites s.heap (gridIdx s.outputBuffers) (refOf s.outputBuffers)
    (fun ij _ => (v.getD ij.1 []).getD ij.2 [])).length = _
  exact heapWrites_length ..

theorem writePBResult_cell (s : AdapterState) (v : Grid) {i j : Nat}
    (hnd : ((gridIdx s.outputBuffers).map (refOf s.outputBuffers)).Nodup)
    (hmem : (i, j) ∈ gridIdx s.outputBuffers)
    (hlt : refOf s.outputBuffers (i, j) < s.heap.length) :
    (writePBResult s v).heap.getD (refOf s.outputBuffers (i, j)) [] =
      (v.getD i []).getD j [] := by
  show (heapWrites s.heap (gridIdx s.outputBuffers) (refOf s.outputBuffers)
    (fun ij _ => (v.getD ij.1 []).getD ij.2 [])).getD
      (refOf s.outputBuffers (i, j)) [] = _
  exact heapWrites_getD_mem _ _ _ _ hnd hmem hlt

@[simp] theorem resetPointers_hopSize (s : AdapterState) :
    (resetPointers s).hopSize = s.hopSize := rfl

@[simp] theorem resetPointers_readPointer (s : AdapterState) :
    (resetPointers s).readPointer = 0 := rfl

@[simp] theorem resetPointers_writePointer (s : AdapterState) :
    (resetPointers s).writePointer = 0 := rfl

@[simp] theorem resetPointers_heap (s : AdapterState) :
    (resetPointers s).heap = s.heap := rfl

@[simp] theorem resetPointers_inputBuffers (s : AdapterState) :
    (resetPointers s).inputBuffers = s.inputBuffers := rfl

@[simp] theorem resetPointers_outputBuffers (s : AdapterState) :
    (resetPointers s).outputBuffers = s.outputBuffers := rfl

@[simp] theorem outputShiftTo_state (s : AdapterState) (outs : Grid) :
    (outputShiftTo s outs).2 =
      { s with readPointer := s.readPointer + WEB_AUDIO_BLOCK_SIZE } := rfl

/-- The block written to the host output at position (i, j) of the grid. -/
theorem outputShiftTo_entry (s : AdapterState) (outs : Grid) {i j : Nat}
    (hi : i < outs.length) (hj : j < (outs.getD i []).length) :
    (((outputShiftTo s outs).1.getD i []).getD j []) =
      bufSet ((outs.getD i []).getD j []) 0 (drainSlice s i j) := by
  show ((((List.range outs.length).map _).getD i []).getD j []) = _
  rw [getD_map_range _ _ hi, getD_map_range _ _ hj]

/-! ### Branch lemmas: the four paths through `process` -/

theorem process_of_drain (pb : PB) (s : AdapterState) (ins outs : Grid)
    (h : s.readPointer < s.hopSize) :
    process pb s ins outs =
      ⟨true, (outputShiftTo (inputBufferStep s ins) outs).1,
        (outputShiftTo (inputBufferStep s ins) outs).2, false, [], []⟩ := by
  unfold process
  rw [if_pos]
  exact h

theorem process_of_notReady (pb : PB) (s : AdapterState) (ins outs : Grid)
    (h1 : s.hopSize ≤ s.readPointer)
    (h2 : s.writePointer + WEB_AUDIO_BLOCK_SIZE < s.hopSize) :
    process pb s ins outs =
      ⟨true, outs, inputBufferStep s ins, false, [], []⟩ := by
  unfold process
  rw [if_neg (by exact Nat.not_lt.2 h1), if_pos (by exact Nat.not_le.2 h2)]

theorem process_of_ready_ok (pb : PB) (s : AdapterState) (ins outs : Grid)
    (h1 : s.hopSize ≤ s.readPointer)
    (h2 : s.hopSize ≤ s.writePointer + WEB_AUDIO_BLOCK_SIZE)
    (hok : (pb.run
        (gridView (inputBufferStep s ins).heap s.inputBuffers)
        (gridView (inputBufferStep s ins).heap s.outputBuffers)).2 = true) :
    process pb s ins outs =
      ⟨true,
        (outputShiftTo (resetPointers (writePBResult (inputBufferStep s ins)
          (pb.run (gridView (inputBufferStep s ins).heap s.inputBuffers)
            (gridView (inputBufferStep s ins).heap s.outputBuffers)).1))
          outs).1,
        (outputShiftTo (resetPointers (writePBResult (inputBufferStep s ins)
          (pb.run (gridView (inputBufferStep s ins).heap s.inputBuffers)
            (gridView (inputBufferStep s ins).heap s.outputBuffers)).1))
          outs).2,
        true,
        gridView (inputBufferStep s ins).heap s.inputBuffers,
        gridView (inputBufferStep s ins).heap s.outputBuffers⟩ := by
  unfold process
  rw [if_neg (by exact Nat.not_lt.2 h1),
    if_neg (by exact not_not_intro (h2 : inputHasEnough (inputBufferStep s ins)))]
  simp only [inputBufferStep_inputBuffers, inputBufferStep_outputBuffers] at hok ⊢
  rw [if_pos hok]

theorem process_of_ready_fail (pb : PB) (s : AdapterState) (ins outs : Grid)
    (h1 : s.hopSize ≤ s.readPointer)
    (h2 : s.hopSize ≤ s.writePointer + WEB_AUDIO_BLOCK_SIZE)
    (hfail : (pb.run
        (gridView (inputBufferStep s ins).heap s.inputBuffers)
        (gridView (inputBufferStep s ins).heap s.outputBuffers)).2 = false) :
    process pb s ins outs =
      ⟨false, outs,
        writePBResult (inputBufferStep s ins)
          (pb.run (gridView (inputBufferStep s ins).heap s.inputBuffers)
            (gridView (inputBufferStep s ins).heap s.outputBuffers)).1,
        true,
        gridView (inputBufferStep s ins).heap s.inputBuffers,
        gridView (inputBufferStep s ins).heap s.outputBuffers⟩ := by
  unfold process
  rw [if_neg (by exact Nat.not_lt.2 h1),
    if_neg (by exact not_not_intro (h2 : inputHasEnough (inputBufferStep s ins)))]
  simp only [inputBufferStep_inputBuffers, inputBufferStep_outputBuffers] at hfail ⊢
  rw [if_neg (by simp [hfail])]

/-! ### Views after (re)configuration -/

theorem setICC_alias (s : AdapterState) (ic cc : Nat) :
    (setInputAndChannelCount s ic cc).outputBuffers =
      (setInputAndChannelCount s ic cc).inputBuffers := rfl

theorem setICC_inputView (s : AdapterState) (ic cc : Nat) :
    gridView (setInputAndChannelCount s ic cc).heap
      (setInputAndChannelCount s ic cc).inputBuffers =
    List.replicate ic (List.replicate cc
      (List.replicate s.hopSize (0 : Sample))) := by
  show gridView
    (s.heap ++ (List.range (ic * cc)).map
      (fun _ => List.replicate s.hopSize (0 : Sample)))
    ((List.range ic).map (fun i =>
      (List.range cc).map (fun j => s.heap.length + (i * cc + j)))) = _
  unfold gridView
  rw [List.map_map, List.eq_replicate_iff]
  refine ⟨by simp, ?_⟩
  intro row hrow
  rw [List.mem_map] at hrow
  obtain ⟨i, hi, rfl⟩ := hrow
  rw [List.mem_range] at hi
  simp only [Function.comp]
  rw [List.map_map, List.eq_replicate_iff]
  refine ⟨by simp, ?_⟩
  intro b hb
  rw [List.mem_map] at hb
  obtain ⟨j, hj, rfl⟩ := hb
  rw [List.mem_range] at hj
  simp only [Function.comp]
  rw [List.getD_append_right _ _ _ _ (by omega),
    show s.heap.length + (i * cc + j) - s.heap.length = i * cc + j by omega]
  have hlt : i * cc + j < ic * cc := by
    calc i * cc + j < i * cc + cc := by omega
    _ = (i + 1) * cc := by ring
    _ ≤ ic * cc := Nat.mul_le_mul_right cc hi
  exact getD_map_range _ _ hlt

/-- C8: construction with (hopSize, inputCount, channelCount) yields
accumulation and drain buffer sets whose visible contents are the
zero-filled grid of shape [inputCount][channelCount][hopSize], with
write pointer 0 and read pointer hopSize. -/
theorem c8_construction_state (hop ic cc : Nat) :
    gridView (mkProcessor hop ic cc).heap
        (mkProcessor hop ic cc).inputBuffers =
      List.replicate ic (List.replicate cc
        (List.replicate hop (0 : Sample))) ∧
    gridView (mkProcessor hop ic cc).heap
        (mkProcessor hop ic cc).outputBuffers =
      List.replicate ic (List.replicate cc
        (List.replicate hop (0 : Sample))) ∧
    (mkProcessor hop ic cc).writePointer = 0 ∧
    (mkProcessor hop ic cc).readPointer = hop := by
  have h := setICC_inputView
    { hopSize := hop, heap := [], inputBuffers := [], outputBuffers := [],
      readPointer := 0, writePointer := 0 } ic cc
  exact ⟨h, h, rfl, rfl⟩

/-- C9: `setInputAndChannelCount` replaces both visible buffer sets by the
zero-filled grid of the new shape and leaves both pointers (and the hop
size) unchanged. -/
theorem c9_reconfiguration (s : AdapterState) (ic cc : Nat) :
    gridView (setInputAndChannelCount s ic cc).heap
        (setInputAndChannelCount s ic cc).inputBuffers =
      List.replicate ic (List.replicate cc
        (List.replicate s.hopSize (0 : Sample))) ∧
    gridView (setInputAndChannelCount s ic cc).heap
        (setInputAndChannelCount s ic cc).outputBuffers =
      List.replicate ic (List.replicate cc
        (List.replicate s.hopSize (0 : Sample))) ∧
    (setInputAndChannelCount s ic cc).readPointer = s.readPointer ∧
    (setInputAndChannelCount s ic cc).writePointer = s.writePointer ∧
    (setInputAndChannelCount s ic cc).hopSize = s.hopSize := by
  have h := setICC_inputView s ic cc
  exact ⟨h, h, rfl, rfl, rfl⟩

/-! ### Concrete scenario material -/

/-- A trivial hook that succeeds and leaves the buffers as they are. -/
def pbTrue : PB := ⟨fun _ ov => (ov, true)⟩

/-- A hook that always reports failure. -/
def pbFalse : PB := ⟨fun _ ov => (ov, false)⟩

def blockOnes : Buf := List.replicate WEB_AUDIO_BLOCK_SIZE 1

def blockTwos : Buf := List.replicate WEB_AUDIO_BLOCK_SIZE 2

/-- The host output block for 1 input and 1 channel (silence). -/
def hostZero11 : Grid := [[List.replicate WEB_AUDIO_BLOCK_SIZE 0]]

/-- Fresh adapter with hop size 256, 1 input, 1 channel. -/
def demoState0 : AdapterState := mkProcessor 256 1 1

/-- First host call: one block of 1-samples. -/
def demoCall1 : ProcessResult := process pbTrue demoState0 [[blockOnes]] hostZero11

/-- Second host call: one block of 2-samples. -/
def demoCall2 : ProcessResult := process pbTrue demoCall1.state [[blockTwos]] hostZero11

/-- C1 (code bug): with hop size 256 = 2 blocks, the second call does invoke
`processBuffered` exactly once, but the input buffer it receives is NOT the
concatenation of the two supplied blocks: the accumulate step of the source
calls `Float32Array.set` without an offset argument, so every block is
written at offset 0 and the buffer handed to `processBuffered` holds only
the final block followed by the original zeros. -/
theorem c1_accumulate_misses_offset :
    demoCall1.calledProcessBuffered = false ∧
    demoCall2.calledProcessBuffered = true ∧
    demoCall2.pbInput =
      [[blockTwos ++ List.replicate WEB_AUDIO_BLOCK_SIZE 0]] ∧
    demoCall2.pbInput ≠ [[blockOnes ++ blockTwos]] := by
  refine ⟨rfl, rfl, by decide, by decide⟩

/-- C2 (code bug): `setInputAndChannelCount` derives `_outputBuffers` from
`_inputBuffers` by a shallow object spread, so the drain set holds the very
same arrays.  One pure accumulate call (no hook invocation) therefore
changes the visible drain-buffer contents from all zeros to the incoming
block. -/
theorem c2_drain_buffers_alias_accumulation :
    demoState0.outputBuffers = demoState0.inputBuffers ∧
    demoCall1.calledProcessBuffered = false ∧
    gridView demoState0.heap demoState0.outputBuffers =
      [[List.replicate 256 (0 : Sample)]] ∧
    gridView demoCall1.state.heap demoCall1.state.outputBuffers =
      [[blockOnes ++ List.replicate WEB_AUDIO_BLOCK_SIZE 0]] ∧
    gridView demoCall1.state.heap demoCall1.state.outputBuffers ≠
      gridView demoState0.heap demoState0.outputBuffers := by
  refine ⟨rfl, rfl, by decide, by decide, by decide⟩

/-- C3: whenever output is still pending after the accumulate step (the read
pointer is below the hop size, and accumulation never moves the read
pointer), the call drains: it returns continue, does not invoke
`processBuffered` (regardless of how large the write pointer is), advances
the read pointer by one block, and copies the pending drain slice into
every channel of the host output block. -/
theorem c3_drain_has_priority (pb : PB) (s : AdapterState) (ins outs : Grid)
    (h : s.readPointer < s.hopSize) :
    (process pb s ins outs).keepAlive = true ∧
    (process pb s ins outs).calledProcessBuffered = false ∧
    (process pb s ins outs).state.readPointer =
      s.readPointer + WEB_AUDIO_BLOCK_SIZE ∧
    (process pb s ins outs).state.writePointer =
      s.writePointer + WEB_AUDIO_BLOCK_SIZE ∧
    ∀ i j, i < outs.length → j < (outs.getD i []).length →
      ((process pb s ins outs).outputs.getD i []).getD j [] =
        bufSet ((outs.getD i []).getD j []) 0
          (drainSlice (inputBufferStep s ins) i j) := by
  rw [process_of_drain pb s ins outs h]
  refine ⟨rfl, rfl, by simp, by simp, ?_⟩
  intro i j hi hj
  exact outputShiftTo_entry _ _ hi hj

/-- Pending-drain state used to witness C3: the write pointer has already
reached the hop size, yet the call still drains. -/
def c3demoState : AdapterState :=
  { hopSize := 256, heap := [List.replicate 256 (9 : Sample)],
    inputBuffers := [[0]], outputBuffers := [[0]],
    readPointer := 128, writePointer := 256 }

theorem c3_drain_has_priority_witness :
    (process pbTrue c3demoState [[blockOnes]] hostZero11).keepAlive = true ∧
    (process pbTrue c3demoState [[blockOnes]] hostZero11).calledProcessBuffered
      = false ∧
    (process pbTrue c3demoState [[blockOnes]] hostZero11).state.readPointer
      = 256 ∧
    (process pbTrue c3demoState [[blockOnes]] hostZero11).state.writePointer
      = 384 ∧
    ((process pbTrue c3demoState [[blockOnes]] hostZero11).outputs.getD 0
      []).getD 0 [] = List.replicate 128 (9 : Sample) := by
  obtain ⟨h1, h2, h3, h4, h5⟩ :=
    c3_drain_has_priority pbTrue c3demoState [[blockOnes]] hostZero11
      (by decide)
  exact ⟨h1, h2, h3, h4, by rw [h5 0 0 (by decide) (by decide)]; decide⟩

/-- C5: if a full hop has accumulated, no output is pending, and the hook
reports failure, the call returns stop, the host output block is left
untouched, and the pointers keep their post-accumulation values (the read
pointer unchanged, the write pointer advanced by the block just consumed —
neither is reset). -/
theorem c5_failure_returns_stop (pb : PB) (s : AdapterState)
    (ins outs : Grid)
    (h1 : s.hopSize ≤ s.readPointer)
    (h2 : s.hopSize ≤ s.writePointer + WEB_AUDIO_BLOCK_SIZE)
    (hfail : (pb.run (gridView (inputBufferStep s ins).heap s.inputBuffers)
        (gridView (inputBufferStep s ins).heap s.outputBuffers)).2 = false) :
    (process pb s ins outs).keepAlive = false ∧
    (process pb s ins outs).outputs = outs ∧
    (process pb s ins outs).calledProcessBuffered = true ∧
    (process pb s ins outs).state.readPointer = s.readPointer ∧
    (process pb s ins outs).state.writePointer =
      s.writePointer + WEB_AUDIO_BLOCK_SIZE := by
  rw [process_of_ready_fail pb s ins outs h1 h2 hfail]
  exact ⟨rfl, rfl, rfl, by simp, by simp⟩

theorem c5_failure_returns_stop_witness :
    (process pbFalse (mkProcessor 128 1 1) [[blockOnes]] hostZero11).keepAlive
      = false ∧
    (process pbFalse (mkProcessor 128 1 1) [[blockOnes]] hostZero11).outputs
      = hostZero11 ∧
    (process pbFalse (mkProcessor 128 1 1) [[blockOnes]]
      hostZero11).calledProcessBuffered = true ∧
    (process pbFalse (mkProcessor 128 1 1) [[blockOnes]]
      hostZero11).state.readPointer = 128 ∧
    (process pbFalse (mkProcessor 128 1 1) [[blockOnes]]
      hostZero11).state.writePointer = 128 :=
  c5_failure_returns_stop pbFalse (mkProcessor 128 1 1) [[blockOnes]]
    hostZero11 (by decide) (by decide) rfl

/-! ### Runs that only accumulate -/

/-- While no output is pending and the hop stays incomplete, every call takes
the not-yet-ready path: the host block is returned untouched, the hook is
never invoked, the read pointer and both buffer grids are untouched, and the
write pointer advances by one block per call. -/
theorem runCalls_silent (pb : PB) (z : Grid) (hop : Nat) :
    ∀ (blocks : List Grid) (t : AdapterState),
      t.hopSize = hop → hop ≤ t.readPointer →
      t.writePointer + WEB_AUDIO_BLOCK_SIZE * blocks.length < hop →
      ((runCalls pb z t blocks).2.map (fun r => r.outputs) =
          blocks.map (fun _ => z)) ∧
      ((runCalls pb z t blocks).2.map (fun r => r.calledProcessBuffered) =
          blocks.map (fun _ => false)) ∧
      ((runCalls pb z t blocks).2.map (fun r => r.keepAlive) =
          blocks.map (fun _ => true)) ∧
      (runCalls pb z t blocks).1.hopSize = hop ∧
      (runCalls pb z t blocks).1.readPointer = t.readPointer ∧
      (runCalls pb z t blocks).1.writePointer =
        t.writePointer + WEB_AUDIO_BLOCK_SIZE * blocks.length ∧
      (runCalls pb z t blocks).1.inputBuffers = t.inputBuffers ∧
      (runCalls pb z t blocks).1.outputBuffers = t.outputBuffers := by
  intro blocks
  induction blocks with
  | nil =>
    intro t h1 h2 h3
    simp [runCalls]
    exact h1
  | cons g gs ih =>
    intro t h1 h2 h3
    simp only [List.length_cons, WEB_AUDIO_BLOCK_SIZE] at h3
    have hnr : t.writePointer + WEB_AUDIO_BLOCK_SIZE < t.hopSize := by
      simp only [WEB_AUDIO_BLOCK_SIZE]
      omega
    have hrp : t.hopSize ≤ t.readPointer := h1 ▸ h2
    have heq := process_of_notReady pb t g z hrp hnr
    have hstep := ih (inputBufferStep t g)
      (by simpa using h1)
      (by simpa using h2)
      (by simp only [inputBufferStep_writePointer, WEB_AUDIO_BLOCK_SIZE]
          omega)
    simp only [runCalls, heq] at *
    refine ⟨?_, ?_, ?_, hstep.2.2.2.1, ?_, ?_, ?_, ?_⟩
    · simp [hstep.1]
    · simp [hstep.2.1]
    · simp [hstep.2.2.1]
    · rw [hstep.2.2.2.2.1]
      simp
    · rw [hstep.2.2.2.2.2.1]
      simp only [inputBufferStep_writePointer, List.length_cons,
        WEB_AUDIO_BLOCK_SIZE]
      ring
    · rw [hstep.2.2.2.2.2.2.1]
      simp
    · rw [hstep.2.2.2.2.2.2.2]
      simp

/-- The hook used in the concrete hop-completion scenario: it fills the
(aliased) 256-sample buffer with the constant 7. -/
def pbSeven : PB := ⟨fun _ _ => ([[List.replicate 256 (7 : Sample)]], true)⟩

def c6call1 : ProcessResult :=
  process pbSeven demoState0 [[blockOnes]] hostZero11

def c6call2 : ProcessResult :=
  process pbSeven c6call1.state [[blockTwos]] hostZero11

/-- C6 as stated is false: with hop size 256 (two blocks) the SECOND call —
still one of the first H/B = 2 calls — already modifies the host output
block, because the hop completes there and the call immediately drains the
first processed slice. -/
theorem c6_counterexample_second_call_outputs :
    c6call1.outputs = hostZero11 ∧
    c6call2.outputs = [[List.replicate 128 (7 : Sample)]] ∧
    c6call2.outputs ≠ hostZero11 := by
  refine ⟨by decide, by decide, by decide⟩

/-- C6 (amended): for a fresh adapter with hop size H = B·n, the first
H/B − 1 calls produce no output (the host block is returned unmodified) and
never invoke the hook; the hop completes at call H/B, which invokes
`processBuffered` and, on success, immediately starts draining (its read
pointer ends at one block). -/
theorem c6_initial_latency (pb : PB) (n ic cc : Nat) (z g : Grid)
    (blocks : List Grid)
    (hlen : blocks.length + 1 = n)
    (hok : (pb.run
        (gridView (inputBufferStep (runCalls pb z
            (mkProcessor (WEB_AUDIO_BLOCK_SIZE * n) ic cc) blocks).1 g).heap
          (runCalls pb z (mkProcessor (WEB_AUDIO_BLOCK_SIZE * n) ic cc)
            blocks).1.inputBuffers)
        (gridView (inputBufferStep (runCalls pb z
            (mkProcessor (WEB_AUDIO_BLOCK_SIZE * n) ic cc) blocks).1 g).heap
          (runCalls pb z (mkProcessor (WEB_AUDIO_BLOCK_SIZE * n) ic cc)
            blocks).1.outputBuffers)).2 = true) :
    ((runCalls pb z (mkProcessor (WEB_AUDIO_BLOCK_SIZE * n) ic cc)
        blocks).2.map (fun r => r.outputs) = blocks.map (fun _ => z)) ∧
    ((runCalls pb z (mkProcessor (WEB_AUDIO_BLOCK_SIZE * n) ic cc)
        blocks).2.map (fun r => r.calledProcessBuffered) =
      blocks.map (fun _ => false)) ∧
    (process pb (runCalls pb z (mkProcessor (WEB_AUDIO_BLOCK_SIZE * n) ic cc)
        blocks).1 g z).calledProcessBuffered = true ∧
    (process pb (runCalls pb z (mkProcessor (WEB_AUDIO_BLOCK_SIZE * n) ic cc)
        blocks).1 g z).keepAlive = true ∧
    (process pb (runCalls pb z (mkProcessor (WEB_AUDIO_BLOCK_SIZE * n) ic cc)
        blocks).1 g z).state.readPointer = WEB_AUDIO_BLOCK_SIZE := by
  have hsil := runCalls_silent pb z (WEB_AUDIO_BLOCK_SIZE * n) blocks
    (mkProcessor (WEB_AUDIO_BLOCK_SIZE * n) ic cc) rfl le_rfl
    (by simp only [WEB_AUDIO_BLOCK_SIZE]
        show 0 + 128 * blocks.length < 128 * n
        omega)
  obtain ⟨ho, hc, _, hhop, hrp, hwp, _, _⟩ := hsil
  have hrp2 : (runCalls pb z (mkProcessor (WEB_AUDIO_BLOCK_SIZE * n) ic cc)
      blocks).1.hopSize ≤ (runCalls pb z (mkProcessor (WEB_AUDIO_BLOCK_SIZE * n)
      ic cc) blocks).1.readPointer := by
    rw [hhop, hrp]
    exact le_rfl
  have hwp2 : (runCalls pb z (mkProcessor (WEB_AUDIO_BLOCK_SIZE * n) ic cc)
      blocks).1.hopSize ≤ (runCalls pb z (mkProcessor (WEB_AUDIO_BLOCK_SIZE * n)
      ic cc) blocks).1.writePointer + WEB_AUDIO_BLOCK_SIZE := by
    rw [hhop, hwp]
    simp only [WEB_AUDIO_BLOCK_SIZE]
    omega
  have heq := process_of_ready_ok pb _ g z hrp2 hwp2 hok
  refine ⟨ho, hc, ?_, ?_, ?_⟩
  · rw [heq]
  · rw [heq]
  · rw [heq]
    simp

theorem c6_initial_latency_witness :
    ((runCalls pbSeven hostZero11
        (mkProcessor (WEB_AUDIO_BLOCK_SIZE * 2) 1 1) [[[blockOnes]]]).2.map
        (fun r => r.outputs) = [hostZero11]) ∧
    ((runCalls pbSeven hostZero11
        (mkProcessor (WEB_AUDIO_BLOCK_SIZE * 2) 1 1) [[[blockOnes]]]).2.map
        (fun r => r.calledProcessBuffered) = [false]) ∧
    (process pbSeven (runCalls pbSeven hostZero11
        (mkProcessor (WEB_AUDIO_BLOCK_SIZE * 2) 1 1) [[[blockOnes]]]).1
        [[blockTwos]] hostZero11).calledProcessBuffered = true ∧
    (process pbSeven (runCalls pbSeven hostZero11
        (mkProcessor (WEB_AUDIO_BLOCK_SIZE * 2) 1 1) [[[blockOnes]]]).1
        [[blockTwos]] hostZero11).keepAlive = true ∧
    (process pbSeven (runCalls pbSeven hostZero11
        (mkProcessor (WEB_AUDIO_BLOCK_SIZE * 2) 1 1) [[[blockOnes]]]).1
        [[blockTwos]] hostZero11).state.readPointer = WEB_AUDIO_BLOCK_SIZE :=
  c6_initial_latency pbSeven 2 1 1 hostZero11 [[blockTwos]] [[[blockOnes]]]
    (by decide) rfl

/-- C10: with the default topology (0 inputs, 0 channels) the buffer sets
are empty, yet the write pointer still advances one block per call, so the
hook is first invoked — with empty input and output buffer sets — at call
number ⌈hopSize / blockSize⌉: the preceding ⌈hopSize / blockSize⌉ − 1 calls
never invoke it, and the call made on the resulting state does. -/
theorem c10_empty_topology_still_processes (pb : PB) (hop : Nat)
    (hpos : 0 < hop) :
    (mkProcessor hop 0 0).inputBuffers = [] ∧
    (mkProcessor hop 0 0).outputBuffers = [] ∧
    ((runCalls pb [] (mkProcessor hop 0 0)
        (List.replicate ((hop + 127) / 128 - 1) [])).2.map
        (fun r => r.calledProcessBuffered) =
      List.replicate ((hop + 127) / 128 - 1) false) ∧
    (runCalls pb [] (mkProcessor hop 0 0)
        (List.replicate ((hop + 127) / 128 - 1) [])).1.writePointer =
      WEB_AUDIO_BLOCK_SIZE * ((hop + 127) / 128 - 1) ∧
    (process pb (runCalls pb [] (mkProcessor hop 0 0)
        (List.replicate ((hop + 127) / 128 - 1) [])).1 [] []
      ).calledProcessBuffered = true ∧
    (process pb (runCalls pb [] (mkProcessor hop 0 0)
        (List.replicate ((hop + 127) / 128 - 1) [])).1 [] []).pbInput = [] ∧
    (process pb (runCalls pb [] (mkProcessor hop 0 0)
        (List.replicate ((hop + 127) / 128 - 1) [])).1 [] []).pbOutput
      = [] := by
  have hdm := Nat.div_add_mod (hop + 127) 128
  have hml : (hop + 127) % 128 < 128 := Nat.mod_lt _ (by omega)
  set q := (hop + 127) / 128 with hq
  have hq1 : 1 ≤ q := by omega
  have hlow : 128 * (q - 1) < hop := by omega
  have hhigh : hop ≤ 128 * q := by omega
  have hsil := runCalls_silent pb [] hop (List.replicate (q - 1) [])
    (mkProcessor hop 0 0) rfl le_rfl
    (by simp only [List.length_replicate, WEB_AUDIO_BLOCK_SIZE]
        show 0 + 128 * (q - 1) < hop
        omega)
  obtain ⟨_, hc, _, hhop, hrp, hwp, hib, hob⟩ := hsil
  have hibz : (mkProcessor hop 0 0).inputBuffers = [] := rfl
  have hobz : (mkProcessor hop 0 0).outputBuffers = [] := rfl
  have hrp2 : (runCalls pb [] (mkProcessor hop 0 0)
      (List.replicate (q - 1) [])).1.hopSize ≤
      (runCalls pb [] (mkProcessor hop 0 0)
      (List.replicate (q - 1) [])).1.readPointer := by
    rw [hhop, hrp]
    exact le_rfl
  have hwp2 : (runCalls pb [] (mkProcessor hop 0 0)
      (List.replicate (q - 1) [])).1.hopSize ≤
      (runCalls pb [] (mkProcessor hop 0 0)
      (List.replicate (q - 1) [])).1.writePointer + WEB_AUDIO_BLOCK_SIZE := by
    rw [hhop, hwp]
    simp only [List.length_replicate, WEB_AUDIO_BLOCK_SIZE]
    omega
  refine ⟨hibz, hobz, by rw [hc, List.map_replicate], ?_, ?_⟩
  · have hwpz : (mkProcessor hop 0 0).writePointer = 0 := rfl
    rw [hwp, hwpz]
    simp [List.length_replicate]
  · rcases hbool : (pb.run
        (gridView (inputBufferStep (runCalls pb [] (mkProcessor hop 0 0)
          (List.replicate (q - 1) [])).1 []).heap
          (runCalls pb [] (mkProcessor hop 0 0)
            (List.replicate (q - 1) [])).1.inputBuffers)
        (gridView (inputBufferStep (runCalls pb [] (mkProcessor hop 0 0)
          (List.replicate (q - 1) [])).1 []).heap
          (runCalls pb [] (mkProcessor hop 0 0)
            (List.replicate (q - 1) [])).1.outputBuffers)).2 with hf | ht
    · have heq := process_of_ready_fail pb _ [] [] hrp2 hwp2 hbool
      rw [heq]
      refine ⟨rfl, ?_, ?_⟩
      · show gridView _ (runCalls pb [] (mkProcessor hop 0 0)
          (List.replicate (q - 1) [])).1.inputBuffers = []
        rw [hib, hibz]
        rfl
      · show gridView _ (runCalls pb [] (mkProcessor hop 0 0)
          (List.replicate (q - 1) [])).1.outputBuffers = []
        rw [hob, hobz]
        rfl
    · have heq := process_of_ready_ok pb _ [] [] hrp2 hwp2 hbool
      rw [heq]
      refine ⟨rfl, ?_, ?_⟩
      · show gridView _ (runCalls pb [] (mkProcessor hop 0 0)
          (List.replicate (q - 1) [])).1.inputBuffers = []
        rw [hib, hibz]
        rfl
      · show gridView _ (runCalls pb [] (mkProcessor hop 0 0)
          (List.replicate (q - 1) [])).1.outputBuffers = []
        rw [hob, hobz]
        rfl

theorem c10_empty_topology_witness :
    (mkProcessor 256 0 0).inputBuffers = [] ∧
    (mkProcessor 256 0 0).outputBuffers = [] ∧
    ((runCalls pbTrue [] (mkProcessor 256 0 0)
        (List.replicate ((256 + 127) / 128 - 1) [])).2.map
        (fun r => r.calledProcessBuffered) =
      List.replicate ((256 + 127) / 128 - 1) false) ∧
    (runCalls pbTrue [] (mkProcessor 256 0 0)
        (List.replicate ((256 + 127) / 128 - 1) [])).1.writePointer =
      WEB_AUDIO_BLOCK_SIZE * ((256 + 127) / 128 - 1) ∧
    (process pbTrue (runCalls pbTrue [] (mkProcessor 256 0 0)
        (List.replicate ((256 + 127) / 128 - 1) [])).1 [] []
      ).calledProcessBuffered = true ∧
    (process pbTrue (runCalls pbTrue [] (mkProcessor 256 0 0)
        (List.replicate ((256 + 127) / 128 - 1) [])).1 [] []).pbInput = [] ∧
    (process pbTrue (runCalls pbTrue [] (mkProcessor 256 0 0)
        (List.replicate ((256 + 127) / 128 - 1) [])).1 [] []).pbOutput
      = [] :=
  c10_empty_topology_still_processes pbTrue 256 (by decide)

/-! ### Reachability and pointer invariants -/

/-- States reachable from construction through calls that all returned
continue, together with a ghost count of accumulate steps since the last
pointer reset (every call performs exactly one accumulate step; a
successful processing call resets the count). -/
inductive ReachLive (pb : PB) (hop ic cc : Nat) : AdapterState → Nat → Prop
  | init : ReachLive pb hop ic cc (mkProcessor hop ic cc) 0
  | stepPlain (s : AdapterState) (k : Nat) (ins outs : Grid) :
      ReachLive pb hop ic cc s k →
      (process pb s ins outs).keepAlive = true →
      (process pb s ins outs).calledProcessBuffered = false →
      ReachLive pb hop ic cc (process pb s ins outs).state (k + 1)
  | stepProc (s : AdapterState) (k : Nat) (ins outs : Grid) :
      ReachLive pb hop ic cc s k →
      (process pb s ins outs).keepAlive = true →
      (process pb s ins outs).calledProcessBuffered = true →
      ReachLive pb hop ic cc (process pb s ins outs).state 0

/-- All states the host can observe when it stops calling after the first
stop return: live states, plus the final state of a single stop call. -/
def Reachable (pb : PB) (hop ic cc : Nat) (s : AdapterState) (k : Nat) :
    Prop :=
  ReachLive pb hop ic cc s k ∨
  ∃ t m ins outs, ReachLive pb hop ic cc t m ∧
    (process pb t ins outs).keepAlive = false ∧
    s = (process pb t ins outs).state ∧ k = m + 1

/-- Master invariant on live states: the hop size is constant, the write
pointer counts accumulate steps in blocks, there is always room for one
more block below the read pointer, and the read pointer is a block multiple
bounded by the hop size. -/
theorem reachLive_inv (pb : PB) (n ic cc : Nat) (hn : 1 ≤ n)
    {s : AdapterState} {k : Nat}
    (h : ReachLive pb (WEB_AUDIO_BLOCK_SIZE * n) ic cc s k) :
    s.hopSize = WEB_AUDIO_BLOCK_SIZE * n ∧
    s.writePointer = WEB_AUDIO_BLOCK_SIZE * k ∧
    s.writePointer + WEB_AUDIO_BLOCK_SIZE ≤ s.readPointer ∧
    s.readPointer ≤ WEB_AUDIO_BLOCK_SIZE * n ∧
    WEB_AUDIO_BLOCK_SIZE ∣ s.readPointer := by
  induction h with
  | init =>
    refine ⟨rfl, rfl, ?_, ?_, ?_⟩
    · show 0 + WEB_AUDIO_BLOCK_SIZE ≤ WEB_AUDIO_BLOCK_SIZE * n
      simp only [WEB_AUDIO_BLOCK_SIZE]
      omega
    · exact le_rfl
    · exact Dvd.intro n rfl
  | stepPlain s k ins outs hr hal hpb ih =>
    obtain ⟨ih1, ih2, ih3, ih4, c, hc⟩ := ih
    by_cases hrp : s.readPointer < s.hopSize
    · rw [process_of_drain pb s ins outs hrp] at hpb hal ⊢
      simp only [outputShiftTo_state, inputBufferStep_hopSize,
        inputBufferStep_readPointer, inputBufferStep_writePointer]
      rw [ih1] at hrp
      simp only [WEB_AUDIO_BLOCK_SIZE] at ih2 ih3 ih4 hc hrp ⊢
      refine ⟨ih1, by omega, by omega, by omega, ?_⟩
      exact ⟨c + 1, by omega⟩
    · have h1 : s.hopSize ≤ s.readPointer := Nat.not_lt.1 hrp
      by_cases hwp : s.writePointer + WEB_AUDIO_BLOCK_SIZE < s.hopSize
      · rw [process_of_notReady pb s ins outs h1 hwp] at hpb hal ⊢
        simp only [inputBufferStep_hopSize, inputBufferStep_readPointer,
          inputBufferStep_writePointer]
        rw [ih1] at hwp h1
        have hrpe : s.readPointer = WEB_AUDIO_BLOCK_SIZE * n :=
          le_antisymm ih4 h1
        simp only [WEB_AUDIO_BLOCK_SIZE] at ih2 ih3 hwp hrpe ⊢
        refine ⟨ih1, by omega, by omega, by omega, ?_⟩
        rw [hrpe]
        exact ⟨n, rfl⟩
      · have h2 : s.hopSize ≤ s.writePointer + WEB_AUDIO_BLOCK_SIZE :=
          Nat.not_lt.1 hwp
        rcases hbool : (pb.run
            (gridView (inputBufferStep s ins).heap s.inputBuffers)
            (gridView (inputBufferStep s ins).heap s.outputBuffers)).2 with
          hf | ht
        · rw [process_of_ready_fail pb s ins outs h1 h2 hbool] at hal
          cases hal
        · rw [process_of_ready_ok pb s ins outs h1 h2 hbool] at hpb
          cases hpb
  | stepProc s k ins outs hr hal hpb ih =>
    obtain ⟨ih1, ih2, ih3, ih4, c, hc⟩ := ih
    by_cases hrp : s.readPointer < s.hopSize
    · rw [process_of_drain pb s ins outs hrp] at hpb
      cases hpb
    · have h1 : s.hopSize ≤ s.readPointer := Nat.not_lt.1 hrp
      by_cases hwp : s.writePointer + WEB_AUDIO_BLOCK_SIZE < s.hopSize
      · rw [process_of_notReady pb s ins outs h1 hwp] at hpb
        cases hpb
      · have h2 : s.hopSize ≤ s.writePointer + WEB_AUDIO_BLOCK_SIZE :=
          Nat.not_lt.1 hwp
        rcases hbool : (pb.run
            (gridView (inputBufferStep s ins).heap s.inputBuffers)
            (gridView (inputBufferStep s ins).heap s.outputBuffers)).2 with
          hf | ht
        · rw [process_of_ready_fail pb s ins outs h1 h2 hbool] at hal
          cases hal
        · rw [process_of_ready_ok pb s ins outs h1 h2 hbool] at hpb ⊢
          simp only [outputShiftTo_state, resetPointers_hopSize,
            resetPointers_readPointer, resetPointers_writePointer,
            writePBResult_hopSize, inputBufferStep_hopSize]
          refine ⟨ih1, by simp, ?_, ?_, ?_⟩
          · simp
          · show 0 + WEB_AUDIO_BLOCK_SIZE ≤ WEB_AUDIO_BLOCK_SIZE * n
            simp only [WEB_AUDIO_BLOCK_SIZE]
            omega
          · exact ⟨1, by simp⟩

/-- C7: with hop size a positive multiple of the block size, every state the
host can reach (it stops calling after the first stop return) keeps both
pointers within [0, hopSize] — the lower bound is inherent to the Nat
encoding of the JavaScript counters, which only ever add non-negative
amounts or reset to 0 — and the write pointer equals the number of
accumulate steps since the last reset times the block size. -/
theorem c7_pointers_bounded (pb : PB) (n ic cc : Nat) (hn : 1 ≤ n)
    {s : AdapterState} {k : Nat}
    (h : Reachable pb (WEB_AUDIO_BLOCK_SIZE * n) ic cc s k) :
    s.writePointer ≤ s.hopSize ∧ s.readPointer ≤ s.hopSize ∧
    s.writePointer = k * WEB_AUDIO_BLOCK_SIZE := by
  rcases h with hl | ⟨t, m, ins, outs, ht, hstop, rfl, rfl⟩
  · obtain ⟨h1, h2, h3, h4, _⟩ := reachLive_inv pb n ic cc hn hl
    rw [h1]
    exact ⟨by omega, h4, by rw [h2]; ring⟩
  · obtain ⟨h1, h2, h3, h4, _⟩ := reachLive_inv pb n ic cc hn ht
    by_cases hrp : t.readPointer < t.hopSize
    · rw [process_of_drain pb t ins outs hrp] at hstop
      cases hstop
    · have hc1 : t.hopSize ≤ t.readPointer := Nat.not_lt.1 hrp
      by_cases hwp : t.writePointer + WEB_AUDIO_BLOCK_SIZE < t.hopSize
      · rw [process_of_notReady pb t ins outs hc1 hwp] at hstop
        cases hstop
      · have hc2 : t.hopSize ≤ t.writePointer + WEB_AUDIO_BLOCK_SIZE :=
          Nat.not_lt.1 hwp
        rcases hbool : (pb.run
            (gridView (inputBufferStep t ins).heap t.inputBuffers)
            (gridView (inputBufferStep t ins).heap t.outputBuffers)).2 with
          hf | hts
        · rw [process_of_ready_fail pb t ins outs hc1 hc2 hbool]
          simp only [writePBResult_hopSize, writePBResult_readPointer,
            writePBResult_writePointer, inputBufferStep_hopSize,
            inputBufferStep_readPointer, inputBufferStep_writePointer]
          rw [h1] at hc1 hc2 ⊢
          refine ⟨by omega, by omega, ?_⟩
          rw [h2]
          ring
        · rw [process_of_ready_ok pb t ins outs hc1 hc2 hbool] at hstop
          cases hstop

theorem c7_pointers_bounded_witness :
    (process pbTrue (mkProcessor (WEB_AUDIO_BLOCK_SIZE * 2) 1 1)
      [[blockOnes]] hostZero11).state.writePointer ≤
      (process pbTrue (mkProcessor (WEB_AUDIO_BLOCK_SIZE * 2) 1 1)
        [[blockOnes]] hostZero11).state.hopSize ∧
    (process pbTrue (mkProcessor (WEB_AUDIO_BLOCK_SIZE * 2) 1 1)
      [[blockOnes]] hostZero11).state.readPointer ≤
      (process pbTrue (mkProcessor (WEB_AUDIO_BLOCK_SIZE * 2) 1 1)
        [[blockOnes]] hostZero11).state.hopSize ∧
    (process pbTrue (mkProcessor (WEB_AUDIO_BLOCK_SIZE * 2) 1 1)
      [[blockOnes]] hostZero11).state.writePointer =
      1 * WEB_AUDIO_BLOCK_SIZE :=
  c7_pointers_bounded pbTrue 2 1 1 (by decide)
    (Or.inl (ReachLive.stepPlain (mkProcessor (WEB_AUDIO_BLOCK_SIZE * 2) 1 1)
      0 [[blockOnes]] hostZero11 ReachLive.init (by decide) (by decide)))

/-! ### Drain ordering -/

/-- The drain phase: starting from a state whose read pointer is k blocks
into a hop whose drain-visible content agrees with `C` beyond the first
block, the remaining n − k calls deliver exactly the suffix of `C` from
position k·B on, in order.  The accumulate step that precedes every drain
only ever overwrites the first block of each (aliased) cell, so the
not-yet-delivered region is left intact. -/
theorem drainPhase (pb : PB) (n ic cc : Nat) (G : RefGrid) (L : Nat)
    (C : Nat → Nat → Buf) (z : Grid)
    (hz : z = List.replicate ic (List.replicate cc
      (List.replicate WEB_AUDIO_BLOCK_SIZE (0 : Sample))))
    (hnd : ((gridIdx G).map (refOf G)).Nodup)
    (hrefs : ∀ ij ∈ gridIdx G, refOf G ij < L)
    (hGlen : G.length = ic)
    (hGrow : ∀ i, i < ic → (G.getD i []).length = cc)
    (hC : ∀ i, i < ic → ∀ j, j < cc →
      (C i j).length = WEB_AUDIO_BLOCK_SIZE * n) :
    ∀ (rest : List Grid) (t : AdapterState) (k : Nat),
      1 ≤ k → k + rest.length = n →
      t.hopSize = WEB_AUDIO_BLOCK_SIZE * n →
      t.readPointer = WEB_AUDIO_BLOCK_SIZE * k →
      t.inputBuffers = G → t.outputBuffers = G →
      t.heap.length = L →
      (∀ a, a < ic → ∀ b, b < cc →
        (t.heap.getD (refOf G (a, b)) []).length =
          WEB_AUDIO_BLOCK_SIZE * n ∧
        (t.heap.getD (refOf G (a, b)) []).drop WEB_AUDIO_BLOCK_SIZE =
          (C a b).drop WEB_AUDIO_BLOCK_SIZE) →
      (∀ g ∈ rest, ∀ a, a < ic → ∀ b, b < cc →
        ((g.getD a []).getD b []).length ≤ WEB_AUDIO_BLOCK_SIZE) →
      ∀ i j, i < ic → j < cc →
        ((runCalls pb z t rest).2.map
          (fun r => (r.outputs.getD i []).getD j [])).flatten =
          (C i j).drop (WEB_AUDIO_BLOCK_SIZE * k) := by
  intro rest
  induction rest with
  | nil =>
    intro t k hk1 hkn hhop hrp hib hob hL hcell hblk i j hi hj
    simp only [runCalls, List.map_nil, List.flatten_nil]
    symm
    apply List.drop_eq_nil_of_le
    rw [hC i hi j hj]
    have hkeq : k = n := by simpa using hkn
    rw [hkeq]
  | cons g gs ih =>
    intro t k hk1 hkn hhop hrp hib hob hL hcell hblk i j hi hj
    have hkn2 : k < n := by
      simp only [List.length_cons] at hkn
      omega
    have hn1 : 1 ≤ n := by omega
    have hrplt : t.readPointer < t.hopSize := by
      rw [hrp, hhop]
      simp only [WEB_AUDIO_BLOCK_SIZE]
      omega
    have heq := process_of_drain pb t g z hrplt
    -- the accumulate step changes each cell only below one block
    have hcellS1 : ∀ a, a < ic → ∀ b, b < cc →
        ((inputBufferStep t g).heap.getD (refOf G (a, b)) []).length =
          WEB_AUDIO_BLOCK_SIZE * n ∧
        ((inputBufferStep t g).heap.getD (refOf G (a, b)) []).drop
          WEB_AUDIO_BLOCK_SIZE = (C a b).drop WEB_AUDIO_BLOCK_SIZE := by
      intro a ha b hb
      have hmem : (a, b) ∈ gridIdx G :=
        mem_gridIdx.2 ⟨by rw [hGlen]; exact ha, by rw [hGrow a ha]; exact hb⟩
      have hmem' : (a, b) ∈ gridIdx t.inputBuffers := by
        rw [hib]; exact hmem
      have hnd' : ((gridIdx t.inputBuffers).map
          (refOf t.inputBuffers)).Nodup := by
        rw [hib]; exact hnd
      have hlt : refOf t.inputBuffers (a, b) < t.heap.length := by
        rw [hib, hL]; exact hrefs _ hmem
      have hstep := inputBufferStep_cell t g hnd' hmem' hlt
      rw [hib] at hstep
      obtain ⟨hclen, hcdrop⟩ := hcell a ha b hb
      have hblk1 : ((g.getD a []).getD b []).length ≤ WEB_AUDIO_BLOCK_SIZE :=
        hblk g (by simp) a ha b hb
      constructor
      · rw [hstep, length_bufSet_zero _ _ ?_, hclen]
        rw [hclen]
        calc ((g.getD a []).getD b []).length ≤ WEB_AUDIO_BLOCK_SIZE := hblk1
        _ ≤ WEB_AUDIO_BLOCK_SIZE * n := Nat.le_mul_of_pos_right _ hn1
      · rw [hstep, drop_bufSet_zero _ _ hblk1, hcdrop]
    -- the cell content beyond k blocks is still that of C
    have hdropk : ((inputBufferStep t g).heap.getD (refOf G (i, j))
        []).drop (WEB_AUDIO_BLOCK_SIZE * k) =
        (C i j).drop (WEB_AUDIO_BLOCK_SIZE * k) := by
      have hsplit : WEB_AUDIO_BLOCK_SIZE * k = WEB_AUDIO_BLOCK_SIZE +
          (WEB_AUDIO_BLOCK_SIZE * k - WEB_AUDIO_BLOCK_SIZE) := by
        simp only [WEB_AUDIO_BLOCK_SIZE]
        omega
      rw [hsplit, ← List.drop_drop, ← List.drop_drop,
        (hcellS1 i hi j hj).2]
    -- the delivered block is the k-th slice of C
    have hzi : i < z.length := by rw [hz]; simpa using hi
    have hzj : j < (z.getD i []).length := by
      rw [hz, getD_replicate _ _ hi]
      simpa using hj
    have hzcell : (z.getD i []).getD j [] =
        List.replicate WEB_AUDIO_BLOCK_SIZE (0 : Sample) := by
      rw [hz, getD_replicate _ _ hi, getD_replicate _ _ hj]
    have hslice : drainSlice (inputBufferStep t g) i j =
        ((C i j).drop (WEB_AUDIO_BLOCK_SIZE * k)).take
          WEB_AUDIO_BLOCK_SIZE := by
      unfold drainSlice
      rw [inputBufferStep_outputBuffers, inputBufferStep_readPointer, hob,
        hrp, hdropk]
    have hslicelen :
        (((C i j).drop (WEB_AUDIO_BLOCK_SIZE * k)).take
          WEB_AUDIO_BLOCK_SIZE).length = WEB_AUDIO_BLOCK_SIZE := by
      rw [List.length_take, List.length_drop, hC i hi j hj]
      simp only [WEB_AUDIO_BLOCK_SIZE]
      omega
    have hdeliv : (((outputShiftTo (inputBufferStep t g) z).1.getD i
        []).getD j []) =
        ((C i j).drop (WEB_AUDIO_BLOCK_SIZE * k)).take
          WEB_AUDIO_BLOCK_SIZE := by
      rw [outputShiftTo_entry _ _ hzi hzj, hzcell, hslice,
        bufSet_zero_of_ge]
      rw [List.length_replicate, hslicelen]
    -- invariants for the next call
    have hihres := ih (outputShiftTo (inputBufferStep t g) z).2 (k + 1)
      (by omega)
      (by simp only [List.length_cons] at hkn; omega)
      (by simpa using hhop)
      (by simp only [outputShiftTo_state, inputBufferStep_readPointer]
          rw [hrp]
          simp only [WEB_AUDIO_BLOCK_SIZE]
          ring)
      (by simpa using hib)
      (by simpa using hob)
      (by simpa using hL)
      (by intro a ha b hb
          simpa using hcellS1 a ha b hb)
      (by intro g' hg' a ha b hb
          exact hblk g' (by simp [hg']) a ha b hb)
      i j hi hj
    -- assemble the concatenation
    simp only [runCalls, heq, List.map_cons, List.flatten_cons]
    rw [hdeliv, hihres]
    have hsucc : (C i j).drop (WEB_AUDIO_BLOCK_SIZE * (k + 1)) =
        (((C i j).drop (WEB_AUDIO_BLOCK_SIZE * k)).drop
          WEB_AUDIO_BLOCK_SIZE) := by
      rw [List.drop_drop, Nat.mul_succ]
    rw [hsucc, List.take_append_drop]

/-- C4: for hop size B·n, across the n consecutive drain deliveries that
follow a successful processing step — the slice delivered by the processing
call itself followed by the n − 1 subsequent drain calls — the delivered
blocks concatenate, in call order, to exactly the hop-size content the
processing step left in the drain buffer cell, with no gaps, repeats, or
reordering.  Stated per channel (i, j) of the configured topology. -/
theorem c4_drain_reconstructs_processed_hop (pb : PB) (n ic cc : Nat)
    (s : AdapterState) (ins0 : Grid) (rest : List Grid) (z : Grid)
    (i j : Nat)
    (hhop : s.hopSize = WEB_AUDIO_BLOCK_SIZE * n)
    (halias : s.outputBuffers = s.inputBuffers)
    (hnd : ((gridIdx s.inputBuffers).map (refOf s.inputBuffers)).Nodup)
    (hrefs : ∀ ij ∈ gridIdx s.inputBuffers,
      refOf s.inputBuffers ij < s.heap.length)
    (hGlen : s.inputBuffers.length = ic)
    (hGrow : ∀ a, a < ic → (s.inputBuffers.getD a []).length = cc)
    (hz : z = List.replicate ic (List.replicate cc
      (List.replicate WEB_AUDIO_BLOCK_SIZE (0 : Sample))))
    (hrdy1 : s.hopSize ≤ s.readPointer)
    (hrdy2 : s.hopSize ≤ s.writePointer + WEB_AUDIO_BLOCK_SIZE)
    (hrest : rest.length + 1 = n)
    (hblk : ∀ g ∈ rest, ∀ a, a < ic → ∀ b, b < cc →
      ((g.getD a []).getD b []).length ≤ WEB_AUDIO_BLOCK_SIZE)
    (hok : (pb.run (gridView (inputBufferStep s ins0).heap s.inputBuffers)
        (gridView (inputBufferStep s ins0).heap s.outputBuffers)).2 = true)
    (hpblen : ∀ a, a < ic → ∀ b, b < cc →
      (((pb.run (gridView (inputBufferStep s ins0).heap s.inputBuffers)
          (gridView (inputBufferStep s ins0).heap
            s.outputBuffers)).1.getD a []).getD b []).length =
        WEB_AUDIO_BLOCK_SIZE * n)
    (hi : i < ic) (hj : j < cc) :
    ((process pb s ins0 z ::
        (runCalls pb z (process pb s ins0 z).state rest).2).map
        (fun r => (r.outputs.getD i []).getD j [])).flatten =
      (process pb s ins0 z).state.heap.getD (refOf s.inputBuffers (i, j))
        [] := by
  have heq := process_of_ready_ok pb s ins0 z hrdy1 hrdy2 hok
  -- cell contents right after the hook ran
  have hwcell : ∀ a, a < ic → ∀ b, b < cc →
      (writePBResult (inputBufferStep s ins0)
        (pb.run (gridView (inputBufferStep s ins0).heap s.inputBuffers)
          (gridView (inputBufferStep s ins0).heap
            s.outputBuffers)).1).heap.getD (refOf s.inputBuffers (a, b)) []
        = (((pb.run (gridView (inputBufferStep s ins0).heap s.inputBuffers)
            (gridView (inputBufferStep s ins0).heap
              s.outputBuffers)).1.getD a []).getD b []) := by
    intro a ha b hb
    have hmem : (a, b) ∈ gridIdx s.inputBuffers :=
      mem_gridIdx.2 ⟨by rw [hGlen]; exact ha, by rw [hGrow a ha]; exact hb⟩
    have hnd' : ((gridIdx (inputBufferStep s ins0).outputBuffers).map
        (refOf (inputBufferStep s ins0).outputBuffers)).Nodup := by
      rw [inputBufferStep_outputBuffers, halias]
      exact hnd
    have hmem' : (a, b) ∈ gridIdx (inputBufferStep s ins0).outputBuffers := by
      rw [inputBufferStep_outputBuffers, halias]
      exact hmem
    have hlt' : refOf (inputBufferStep s ins0).outputBuffers (a, b) <
        (inputBufferStep s ins0).heap.length := by
      rw [inputBufferStep_outputBuffers, halias,
        inputBufferStep_heap_length]
      exact hrefs _ hmem
    have hw := writePBResult_cell (inputBufferStep s ins0)
      (pb.run (gridView (inputBufferStep s ins0).heap s.inputBuffers)
        (gridView (inputBufferStep s ins0).heap s.outputBuffers)).1
      hnd' hmem' hlt'
    have hro : refOf (inputBufferStep s ins0).outputBuffers (a, b) =
        refOf s.inputBuffers (a, b) := by
      rw [inputBufferStep_outputBuffers, halias]
    rw [hro] at hw
    exact hw
  have hs2cell : ∀ a, a < ic → ∀ b, b < cc →
      (process pb s ins0 z).state.heap.getD (refOf s.inputBuffers (a, b)) []
        = (((pb.run (gridView (inputBufferStep s ins0).heap s.inputBuffers)
            (gridView (inputBufferStep s ins0).heap
              s.outputBuffers)).1.getD a []).getD b []) := by
    intro a ha b hb
    rw [heq]
    exact hwcell a ha b hb
  -- the drain phase delivers everything past the first block, in order
  have hphase := drainPhase pb n ic cc s.inputBuffers s.heap.length
    (fun a b => (process pb s ins0 z).state.heap.getD
      (refOf s.inputBuffers (a, b)) []) z hz hnd hrefs hGlen hGrow
    (by intro a ha b hb
        show ((process pb s ins0 z).state.heap.getD
          (refOf s.inputBuffers (a, b)) []).length = WEB_AUDIO_BLOCK_SIZE * n
        rw [hs2cell a ha b hb]
        exact hpblen a ha b hb)
    rest (process pb s ins0 z).state 1
    le_rfl
    (by omega)
    (by rw [heq]; simp [hhop])
    (by rw [heq]; simp)
    (by rw [heq]; simp)
    (by rw [heq]; simp [halias])
    (by rw [heq]; simp)
    (by intro a ha b hb
        refine ⟨?_, rfl⟩
        show ((process pb s ins0 z).state.heap.getD
          (refOf s.inputBuffers (a, b)) []).length = WEB_AUDIO_BLOCK_SIZE * n
        rw [hs2cell a ha b hb]
        exact hpblen a ha b hb)
    hblk i j hi hj
  -- the block delivered by the processing call itself
  have hzi : i < z.length := by rw [hz]; simpa using hi
  have hzj : j < (z.getD i []).length := by
    rw [hz, getD_replicate _ _ hi]
    simpa using hj
  have hzcell : (z.getD i []).getD j [] =
      List.replicate WEB_AUDIO_BLOCK_SIZE (0 : Sample) := by
    rw [hz, getD_replicate _ _ hi, getD_replicate _ _ hj]
  have hdeliv0 : (((process pb s ins0 z).outputs.getD i []).getD j []) =
      ((process pb s ins0 z).state.heap.getD (refOf s.inputBuffers (i, j))
        []).take WEB_AUDIO_BLOCK_SIZE := by
    rw [heq]
    rw [outputShiftTo_entry _ _ hzi hzj, hzcell]
    have hds : drainSlice (resetPointers (writePBResult
        (inputBufferStep s ins0)
        (pb.run (gridView (inputBufferStep s ins0).heap s.inputBuffers)
          (gridView (inputBufferStep s ins0).heap
            s.outputBuffers)).1)) i j =
        ((writePBResult (inputBufferStep s ins0)
          (pb.run (gridView (inputBufferStep s ins0).heap s.inputBuffers)
            (gridView (inputBufferStep s ins0).heap
              s.outputBuffers)).1).heap.getD
          (refOf s.inputBuffers (i, j)) []).take WEB_AUDIO_BLOCK_SIZE := by
      unfold drainSlice
      simp only [resetPointers_outputBuffers, writePBResult_outputBuffers,
        inputBufferStep_outputBuffers, resetPointers_readPointer,
        resetPointers_heap, List.drop_zero, halias]
    rw [hds, bufSet_zero_of_ge]
    · rfl
    · rw [List.length_replicate, List.length_take, hwcell i hi j hj,
        hpblen i hi j hj]
      simp only [WEB_AUDIO_BLOCK_SIZE]
      omega
  -- assemble
  simp only [List.map_cons, List.flatten_cons]
  rw [hdeliv0]
  have hphase' : ((runCalls pb z (process pb s ins0 z).state rest).2.map
      (fun r => (r.outputs.getD i []).getD j [])).flatten =
      ((process pb s ins0 z).state.heap.getD (refOf s.inputBuffers (i, j))
        []).drop WEB_AUDIO_BLOCK_SIZE := by
    simpa using hphase
  rw [hphase']
  exact List.take_append_drop _ _

/-- The ready state used to witness C4: one block already accumulated, no
output pending, hop size two blocks. -/
def c4demoState : AdapterState :=
  { hopSize := WEB_AUDIO_BLOCK_SIZE * 2,
    heap := [List.replicate 256 (0 : Sample)],
    inputBuffers := [[0]], outputBuffers := [[0]],
    readPointer := WEB_AUDIO_BLOCK_SIZE * 2,
    writePointer := WEB_AUDIO_BLOCK_SIZE }

/-- A hook producing a 256-sample ramp, so that slice order is observable. -/
def pbRamp : PB := ⟨fun _ _ => ([[(List.range 256).map Int.ofNat]], true)⟩

theorem c4_drain_reconstructs_processed_hop_witness :
    ((process pbRamp c4demoState [[blockOnes]] hostZero11 ::
        (runCalls pbRamp hostZero11
          (process pbRamp c4demoState [[blockOnes]] hostZero11).state
          [[[blockTwos]]]).2).map
        (fun r => (r.outputs.getD 0 []).getD 0 [])).flatten =
      (process pbRamp c4demoState [[blockOnes]]
        hostZero11).state.heap.getD (refOf c4demoState.inputBuffers (0, 0))
        [] :=
  c4_drain_reconstructs_processed_hop pbRamp 2 1 1 c4demoState
    [[blockOnes]] [[[blockTwos]]] hostZero11 0 0
    (by decide) (by decide) (by decide) (by decide) (by decide) (by decide)
    (by decide) (by decide) (by decide) (by decide) (by decide) rfl
    (by decide) (by decide) (by decide)

end HopWorklet
